import Mathlib

/-!
# Verification of the ckeditor4-angular wrapper and its test toolkit

Shallow embedding of:
* `src/src/test.tools.ts` — the mock native data-transfer object,
  the sequenced data-injection helpers (`setDataMultipleTimes`, `setDataHelper`);
* `src/ckeditor/esm2020/ckeditor.component.mjs` — the `CKEditorComponent`
  state (`_data`, `_readOnly`, `_destroyed`, `instance`), its `data` and
  `readOnly` property accessors, `subscribe`, `propagateChange`, the
  `instanceReady` handler installed by `createEditor`, `ngAfterViewInit`'s
  post-namespace continuation and `ngOnDestroy`.

The external CKEditor instance is modelled as a record carrying its serialized
content, its read-only flag, whether the `undoManager` plugin is present, and a
`normalize` function standing for the library's own content filtering (ACF):
`setData s` stores `normalize s`, `getData` returns the stored content.
Observable effects (output emissions, calls into the instance, callback
invocations, synthetic `fire`s) are reified as an ordered list of `Step`s.
-/

/-- An observable effect of the component or of the test helpers: an output
emission, a call into the editor instance, a registered-callback invocation,
or a synthetic event fired on the instance. -/
inductive Step where
  | undoLock
  | undoUnlock
  | instSetData (s : String)
  | instSetReadOnly (b : Bool)
  | instDestroy
  | fire (name : String)
  | emitChange
  | emitDataReady
  | emitDataChange (s : String)
  | cbOnChange (s : String)
  | cbUserReady
  | emitReady
  deriving DecidableEq, Repr

/-- Model of an external CKEditor instance as seen through the API surface the
wrapper uses: `setData`/`getData` (with the library's own content filtering
modelled by `normalize`), the `readOnly` property, and presence of the
`undoManager` plugin. -/
structure Editor where
  normalize : String → String
  content : String
  readOnly : Bool
  hasUndo : Bool

/-- `editor.setData(s)`: the instance stores its own filtered version of the
input (the component's source notes "Data may be changed by ACF"). -/
def Editor.setData (e : Editor) (s : String) : Editor :=
  { e with content := e.normalize s }

/-- `editor.getData()`: the instance's current serialized content. -/
def Editor.getData (e : Editor) : String :=
  e.content

/-- The component's own mutable fields: the instance handle, the cached data
`_data`, the pending read-only flag `_readOnly`, the `_destroyed` latch, and
whether a value-accessor `onChange` callback has been registered. -/
structure CKState where
  inst : Option Editor
  _data : Option String
  _readOnly : Option Bool
  _destroyed : Bool
  onChangeReg : Bool

/-- `get data()`: returns the cached `_data`. -/
def CKState.dataGet (st : CKState) : Option String :=
  st._data

/-- `set data(data)` for a string write: no-op when the value equals the cached
`_data`; with an instance, `instance.setData(data)` then re-cache from
`instance.getData()`; otherwise cache locally. Returns the new state and the
calls made into the instance. -/
def CKState.dataSet (st : CKState) (d : String) : CKState × List Step :=
  if some d = st._data then (st, [])
  else
    match st.inst with
    | some e =>
        let e2 := e.setData d
        ({ st with inst := some e2, _data := some e2.getData }, [Step.instSetData d])
    | none => ({ st with _data := some d }, [])

/-- `set readOnly(isReadOnly)`: delegate to `instance.setReadOnly` when an
instance exists, otherwise store locally in `_readOnly`. -/
def CKState.readOnlySet (st : CKState) (b : Bool) : CKState × List Step :=
  match st.inst with
  | some e => ({ st with inst := some { e with readOnly := b } }, [Step.instSetReadOnly b])
  | none => ({ st with _readOnly := some b }, [])

/-- `get readOnly()`: `instance.readOnly` when an instance exists, else the
locally stored `_readOnly` (possibly null). -/
def CKState.readOnlyGet (st : CKState) : Option Bool :=
  match st.inst with
  | some e => some e.readOnly
  | none => st._readOnly

/-- The handler bound to a native editor event in `subscribe`: either a plain
forwarder of the named output, the blur handler (touched callback plus blur
emission), or the shared `propagateChange` handler. -/
inductive Handler where
  | forward (output : String)
  | blurHandler
  | propagate
  deriving DecidableEq, Repr

/-- `subscribe(editor)`: the list of `(native event, handler)` bindings made,
in source order.  `propagateChange` is bound to `dataReady` always and to
`change` when `undoManager` is present, `selectionCheck` otherwise. -/
def subscribe (e : Editor) : List (String × Handler) :=
  [("focus", Handler.forward "focus"),
   ("paste", Handler.forward "paste"),
   ("afterPaste", Handler.forward "afterPaste"),
   ("dragend", Handler.forward "dragEnd"),
   ("dragstart", Handler.forward "dragStart"),
   ("drop", Handler.forward "drop"),
   ("fileUploadRequest", Handler.forward "fileUploadRequest"),
   ("fileUploadResponse", Handler.forward "fileUploadResponse"),
   ("blur", Handler.blurHandler),
   ("dataReady", Handler.propagate)]
  ++ (if e.hasUndo then [("change", Handler.propagate)]
      else [("selectionCheck", Handler.propagate)])

/-- `propagateChange(event)`: reads `instance.getData()`; emits `change` when
the native event name is `"change"`, `dataReady` when it is `"dataReady"`;
stops if the fresh content equals the cached `_data`; otherwise updates the
cache, emits `dataChange` with the new content and invokes the registered
`onChange` callback if any.  (It is only ever invoked through a `subscribe`
binding, hence with an instance present.) -/
def propagateChange (st : CKState) (evName : String) : CKState × List Step :=
  match st.inst with
  | none => (st, [])
  | some e =>
      let newData := e.getData
      let evs :=
        (if evName = "change" then [Step.emitChange]
         else if evName = "dataReady" then [Step.emitDataReady] else [])
      if some newData = st._data then (st, evs)
      else
        ({ st with _data := some newData },
         evs ++ [Step.emitDataChange newData]
             ++ (if st.onChangeReg then [Step.cbOnChange newData] else []))

/-- `editor.fire(name)` as observed by the wrapper: dispatches to
`propagateChange` exactly when `subscribe` bound it to that event name. -/
def fireEvent (st : CKState) (e : Editor) (nm : String) : CKState × List Step :=
  if (nm, Handler.propagate) ∈ subscribe e then propagateChange st nm else (st, [])

/-- The `config.on.instanceReady` handler installed by `createEditor`:
stores the instance, resolves and applies the read-only state through the
`readOnly` setter (pending `_readOnly` wins over the instance default),
subscribes, and — when a cached data value exists — locks the undo manager if
present, pushes the data, inside the completion callback fires a synthetic
`change` (or `dataReady` without undo manager) when the serialized content
still differs from the cached value, unlocks, then invokes the user-supplied
instanceReady callback (if any) and emits `ready`. -/
def instanceReadyHandler (st : CKState) (e : Editor) (hasUserCb : Bool) :
    CKState × List Step :=
  let rov := st._readOnly.getD e.readOnly
  let e1 : Editor := { e with readOnly := rov }
  let undo := e.hasUndo
  match st._data with
  | some d =>
      let e2 := e1.setData d
      let stMid : CKState := { st with inst := some e2 }
      let fired :=
        if d ≠ e2.getData then
          let nm := if undo then "change" else "dataReady"
          let p := fireEvent stMid e2 nm
          (p.1, Step.fire nm :: p.2)
        else (stMid, [])
      (fired.1,
       Step.instSetReadOnly rov
         :: ((if undo then [Step.undoLock] else [])
         ++ [Step.instSetData d]
         ++ fired.2
         ++ (if undo then [Step.undoUnlock] else [])
         ++ (if hasUserCb then [Step.cbUserReady] else [])
         ++ [Step.emitReady]))
  | none =>
      ({ st with inst := some e1 },
       Step.instSetReadOnly rov
         :: ((if hasUserCb then [Step.cbUserReady] else [])
         ++ [Step.emitReady]))

/-- `ngOnDestroy()`: sets the `_destroyed` latch; if an instance exists it is
destroyed and the handle cleared. -/
def ngOnDestroy (st : CKState) : CKState × List Step :=
  match st.inst with
  | some _ => ({ st with _destroyed := true, inst := none }, [Step.instDestroy])
  | none => ({ st with _destroyed := true }, [])

/-- The continuation `ngAfterViewInit` runs once the namespace promise
resolves: abandoned when the `_destroyed` latch is set, otherwise proceeds to
`createEditor` (abstracted as `create`, since instance construction is driven
by the external library). -/
def afterViewInitThen (st : CKState)
    (create : CKState → CKState × List Step) : CKState × List Step :=
  if st._destroyed then (st, []) else create st

/-! ## Test toolkit (`src/src/test.tools.ts`) -/

/-- The editor instance as exercised by the sequenced data-injection helpers:
only its serialized content matters here (a `setData` stores the given
string verbatim). -/
structure TestEditor where
  content : String
  deriving DecidableEq, Repr

/-- `editor.setData(s)` on the test editor. -/
def TestEditor.setData (_e : TestEditor) (s : String) : TestEditor :=
  ⟨s⟩

/-- A timed event of a sequenced injection run: a `setData` push or the
promise resolution, each with its absolute time in milliseconds from the
start of the call (a `setTimeout(f, 100)` fires 100 ms later). -/
inductive TEvent where
  | set (time : Nat) (s : String)
  | resolve (time : Nat)
  deriving DecidableEq, Repr

/-- `setDataHelper(editor, data, done)`: while the array is non-empty, shift
its head and after a 100 ms timeout push it and recurse; once empty, call
`done` after a final 100 ms timeout.  Returns the final editor, the final
contents of the caller's array (emptied by `shift`), and the timed trace;
`t` is the absolute time at which the call happens. -/
def setDataHelper (e : TestEditor) (data : List String) (t : Nat) :
    TestEditor × List String × List TEvent :=
  match data with
  | [] => (e, [], [TEvent.resolve (t + 100)])
  | c :: rest =>
      let r := setDataHelper (e.setData c) rest (t + 100)
      (r.1, r.2.1, TEvent.set (t + 100) c :: r.2.2)

/-- `setDataMultipleTimes(editor, data)`: on a non-inline editing surface,
delegate to `setDataHelper` (asynchronous pushes 100 ms apart); on an inline
one, push every string synchronously via `forEach` (which leaves the caller's
array untouched) and resolve immediately.  Returns the final editor, the
final contents of the caller's array, and the timed trace. -/
def setDataMultipleTimes (isInline : Bool) (e : TestEditor) (data : List String) :
    TestEditor × List String × List TEvent :=
  if !isInline then
    setDataHelper e data 0
  else
    (data.foldl (fun ed s => ed.setData s) e, data,
     data.map (fun s => TEvent.set 0 s) ++ [TEvent.resolve 0])

/-- `mockNativeDataTransfer()`'s state: the ordered `types` list and the
`_data` store (a JS object, modelled as a partial map from type strings). -/
structure MockDataTransfer where
  types : List String
  store : String → Option String

/-- The freshly constructed mock: empty type list, empty store. -/
def MockDataTransfer.init : MockDataTransfer :=
  { types := [], store := fun _ => none }

/-- `setData(type, data)` on the mock: writing `'text/plain'` or `'Text'`
stores the value under both keys, any other type only under itself; the type
actually passed is then pushed onto `types`. -/
def MockDataTransfer.setData (m : MockDataTransfer) (ty v : String) :
    MockDataTransfer :=
  let store' : String → Option String :=
    if ty = "text/plain" ∨ ty = "Text" then
      fun k => if k = "text/plain" ∨ k = "Text" then some v else m.store k
    else
      fun k => if k = ty then some v else m.store k
  { types := m.types ++ [ty], store := store' }

/-- `getData(type)` on the mock. -/
def MockDataTransfer.getData (m : MockDataTransfer) (ty : String) : Option String :=
  m.store ty

/-- `clearData(type)` on the mock: looks up the first index of `type` in
`types` (`CKEDITOR.tools.indexOf`); when found, deletes `_data[type]` and
splices that one entry out of `types`; otherwise does nothing. -/
def MockDataTransfer.clearData (m : MockDataTransfer) (ty : String) :
    MockDataTransfer :=
  match m.types.indexOf? ty with
  | none => m
  | some i =>
      { types := m.types.eraseIdx i,
        store := fun k => if k = ty then none else m.store k }

/-- Recognizes a `setReadOnly` call into the instance. -/
def Step.isSetReadOnly : Step → Bool
  | Step.instSetReadOnly _ => true
  | _ => false

/-- Recognizes a `setData` call into the instance. -/
def Step.isSetData : Step → Bool
  | Step.instSetData _ => true
  | _ => false

/-! ## Supporting lemmas -/

lemma eraseIdx_indexOf_eq_erase (l : List String) (a : String) :
    (match l.indexOf? a with
     | none => l
     | some i => l.eraseIdx i) = l.erase a := by
  induction l with
  | nil => rfl
  | cons x xs ih =>
      rw [List.indexOf?_cons]
      by_cases h : x = a
      · subst h
        simp [List.erase_cons_head]
      · have hb : (x == a) = false := beq_false_of_ne h
        rw [hb]
        simp only [if_neg Bool.false_ne_true]
        rw [List.erase_cons_tail (by simp [hb])]
        cases hxs : xs.indexOf? a with
        | none => rw [hxs] at ih; simp [← ih, hxs]
        | some i => rw [hxs] at ih; simp [← ih, hxs, List.eraseIdx_cons_succ]

lemma indexOf?_isSome_of_mem {l : List String} {a : String} (h : a ∈ l) :
    l.indexOf? a ≠ none := by
  intro hn
  rw [List.indexOf?_eq_none_iff] at hn
  exact hn a h (by simp)

lemma setDataHelper_array (data : List String) (e : TestEditor) (t : Nat) :
    (setDataHelper e data t).2.1 = [] := by
  induction data generalizing e t with
  | nil => rfl
  | cons c rest ih => simpa [setDataHelper] using ih (e.setData c) (t + 100)

lemma setDataHelper_trace_get (data : List String) (e : TestEditor) (t : Nat) :
    (∀ i s, data.get? i = some s →
        ((setDataHelper e data t).2.2).get? i = some (TEvent.set (t + 100 * (i + 1)) s)) ∧
    ((setDataHelper e data t).2.2).get? data.length
        = some (TEvent.resolve (t + 100 * (data.length + 1))) ∧
    ((setDataHelper e data t).2.2).length = data.length + 1 := by
  induction data generalizing e t with
  | nil => simp [setDataHelper]
  | cons c rest ih =>
      refine ⟨?_, ?_, ?_⟩
      · intro i s hs
        match i with
        | 0 =>
            simp only [List.get?] at hs
            cases hs
            simp [setDataHelper]
        | Nat.succ j =>
            simp only [List.get?] at hs
            have := (ih (e.setData c) (t + 100)).1 j s hs
            simp only [setDataHelper, List.get?]
            rw [this]
            congr 2
            omega
      · have := (ih (e.setData c) (t + 100)).2.1
        simp only [setDataHelper, List.length_cons, List.get?]
        rw [this]
        congr 2
        omega
      · have := (ih (e.setData c) (t + 100)).2.2
        simp [setDataHelper, this]

lemma foldl_setData_getLast (data : List String) (e : TestEditor) (h : data ≠ []) :
    data.foldl (fun ed s => ed.setData s) e = ⟨data.getLast h⟩ := by
  induction data generalizing e with
  | nil => exact absurd rfl h
  | cons c rest ih =>
      cases rest with
      | nil => rfl
      | cons d rest' =>
          rw [List.foldl_cons, ih (e.setData c) (by simp)]
          congr 1

/-! ## Claims about the test toolkit -/

/-- C6: the claim as stated is false on the code: after `setData('Text',
'hello')`, a `clearData('Text')` deletes only the `'Text'` key of the store —
`getData('text/plain')` still returns `'hello'` afterwards. -/
theorem C6_counterexample :
    ((MockDataTransfer.init.setData "Text" "hello").clearData "Text").getData "text/plain"
      = some "hello" := by
  decide

/-- C6 (amended): after `setData('Text', 'hello')`, `getData('text/plain')`
returns `'hello'`; a subsequent `clearData('Text')` removes the `'Text'`
stored entry and the `'Text'` entry of the ordered type list, while the
`'text/plain'` stored entry survives (still `'hello'`); `'text/plain'` never
entered the type list, so afterwards neither `'Text'` nor `'text/plain'`
appears in it. -/
theorem C6_amended_scenario :
    ((MockDataTransfer.init.setData "Text" "hello").getData "text/plain" = some "hello") ∧
    (((MockDataTransfer.init.setData "Text" "hello").clearData "Text").getData "Text" = none) ∧
    (((MockDataTransfer.init.setData "Text" "hello").clearData "Text").getData "text/plain"
        = some "hello") ∧
    (((MockDataTransfer.init.setData "Text" "hello").clearData "Text").types = []) := by
  refine ⟨?_, ?_, ?_, ?_⟩ <;> decide

lemma foldl_setData_types (ops : List (String × String)) (m : MockDataTransfer) :
    (ops.foldl (fun acc p => acc.setData p.1 p.2) m).types
      = m.types ++ ops.map Prod.fst := by
  induction ops generalizing m with
  | nil => simp
  | cons p rest ih =>
      rw [List.foldl_cons, ih]
      simp [MockDataTransfer.setData]

lemma clearData_types (m : MockDataTransfer) (ty : String) :
    (m.clearData ty).types = m.types.erase ty := by
  have h := eraseIdx_indexOf_eq_erase m.types ty
  unfold MockDataTransfer.clearData
  cases hx : m.types.indexOf? ty with
  | none => rw [hx] at h; exact h
  | some i => rw [hx] at h; exact h

lemma clearData_store (m : MockDataTransfer) (ty k : String) :
    (m.clearData ty).store k
      = if k = ty ∧ ty ∈ m.types then none else m.store k := by
  unfold MockDataTransfer.clearData
  cases hx : m.types.indexOf? ty with
  | none =>
      have hmem : ty ∉ m.types := by
        intro hm
        exact indexOf?_isSome_of_mem hm hx
      simp [hmem]
  | some i =>
      have hmem : ty ∈ m.types := by
        by_contra hm
        have : m.types.indexOf? ty = none := by
          rw [List.indexOf?_eq_none_iff]
          intro x hxm
          simp only [beq_iff_eq]
          intro hEq
          exact hm (hEq ▸ hxm)
        rw [this] at hx
        exact Option.noConfusion hx
      by_cases hk : k = ty <;> simp [hk, hmem]

/-- C10: the mock transfer payload's ordered type list records exactly the
types passed to `setData` in call order (the `'text/plain'`/`'Text'` alias is
mirrored in the store but never pushed to the list, and repeated `setData`
calls with the same type append duplicate entries), and `clearData` removes at
most the first occurrence of the passed type from the list while clearing only
the store key equal to the passed type. -/
theorem C10_mock_invariants (m : MockDataTransfer) (ops : List (String × String))
    (ty k : String) :
    ((ops.foldl (fun acc p => acc.setData p.1 p.2) m).types
        = m.types ++ ops.map Prod.fst) ∧
    ((m.clearData ty).types = m.types.erase ty) ∧
    ((m.clearData ty).store k
        = if k = ty ∧ ty ∈ m.types then none else m.store k) :=
  ⟨foldl_setData_types ops m, clearData_types m ty, clearData_store m ty k⟩

/-- C9: the sequenced data-injection helper mutates its input array — for a
non-inline editor every element is removed (via `shift`) by the time the
promise resolves, leaving the caller's array empty; for an inline editor the
`forEach` path leaves the array untouched. -/
theorem C9_array_mutation (e : TestEditor) (data : List String) :
    ((setDataMultipleTimes false e data).2.1 = []) ∧
    ((setDataMultipleTimes true e data).2.1 = data) := by
  constructor
  · simpa [setDataMultipleTimes] using setDataHelper_array data e 0
  · rfl

/-- C7: sequenced data injection — on an inline editor every string is pushed
synchronously in order at time 0 with the promise resolving immediately after
the last push, and the final instance content is the last string of the
sequence; on a non-inline editor the i-th push happens at time `100·(i+1)`
(pushes 100 ms apart) and the promise resolves a further 100 ms after the last
push. -/
theorem C7_sequenced_injection (e : TestEditor) (data : List String) :
    ((setDataMultipleTimes true e data).2.2
        = data.map (fun s => TEvent.set 0 s) ++ [TEvent.resolve 0]) ∧
    (∀ h : data ≠ [], (setDataMultipleTimes true e data).1 = ⟨data.getLast h⟩) ∧
    (∀ i s, data.get? i = some s →
        ((setDataMultipleTimes false e data).2.2).get? i
          = some (TEvent.set (100 * (i + 1)) s)) ∧
    (((setDataMultipleTimes false e data).2.2).get? data.length
        = some (TEvent.resolve (100 * (data.length + 1)))) ∧
    (((setDataMultipleTimes false e data).2.2).length = data.length + 1) := by
  refine ⟨rfl, ?_, ?_, ?_, ?_⟩
  · intro h
    exact foldl_setData_getLast data e h
  · intro i s hs
    have := (setDataHelper_trace_get data e 0).1 i s hs
    simpa [setDataMultipleTimes] using this
  · have := (setDataHelper_trace_get data e 0).2.1
    simpa [setDataMultipleTimes] using this
  · exact (setDataHelper_trace_get data e 0).2.2

/-- C7 witness: the spec's inline scenario — starting from content
`<p>A</p>`, injecting `["<p>B</p>", "<p>C</p>"]` on an inline editor leaves
content `<p>C</p>` with both pushes at time 0, and the non-inline run pushes
the first string at 100 ms. -/
theorem C7_sequenced_injection_witness :
    (setDataMultipleTimes true ⟨"<p>A</p>"⟩ ["<p>B</p>", "<p>C</p>"]).1
        = ⟨"<p>C</p>"⟩ ∧
    ((setDataMultipleTimes false ⟨"<p>A</p>"⟩ ["<p>B</p>", "<p>C</p>"]).2.2).get? 0
        = some (TEvent.set 100 "<p>B</p>") := by
  constructor
  · exact (C7_sequenced_injection ⟨"<p>A</p>"⟩ ["<p>B</p>", "<p>C</p>"]).2.1 (by decide)
  · exact (C7_sequenced_injection ⟨"<p>A</p>"⟩ ["<p>B</p>", "<p>C</p>"]).2.2.1 0 "<p>B</p>" rfl

/-- C8: `subscribe` binds the shared `propagateChange` handler to the native
`dataReady` event always, to `change` exactly when the undo manager is
present, to `selectionCheck` exactly when it is absent, and never to both
`change` and `selectionCheck`. -/
theorem C8_subscribe_bindings (e : Editor) :
    (("dataReady", Handler.propagate) ∈ subscribe e) ∧
    ((("change", Handler.propagate) ∈ subscribe e) ↔ e.hasUndo = true) ∧
    ((("selectionCheck", Handler.propagate) ∈ subscribe e) ↔ e.hasUndo = false) ∧
    ¬((("change", Handler.propagate) ∈ subscribe e) ∧
      (("selectionCheck", Handler.propagate) ∈ subscribe e)) := by
  cases h : e.hasUndo <;> simp [subscribe, h]

/-! ## Claims about the wrapper component -/

/-- C3: tearing the component down before the asynchronous creation sequence
completes abandons creation silently — with the `_destroyed` latch set (in
particular right after `ngOnDestroy`), the post-namespace continuation leaves
the state untouched, performs no steps and creates no instance, whatever the
creation step would have done. -/
theorem C3_destroyed_abandons_creation (st : CKState)
    (create : CKState → CKState × List Step) :
    (st._destroyed = true → afterViewInitThen st create = (st, [])) ∧
    (afterViewInitThen (ngOnDestroy st).1 create = ((ngOnDestroy st).1, [])) ∧
    ((ngOnDestroy st).1.inst = none) ∧
    ((ngOnDestroy st).1._destroyed = true) := by
  refine ⟨?_, ?_, ?_, ?_⟩
  · intro h
    simp [afterViewInitThen, h]
  · cases h : st.inst <;> simp [afterViewInitThen, ngOnDestroy, h]
  · cases h : st.inst <;> simp [ngOnDestroy, h]
  · cases h : st.inst <;> simp [ngOnDestroy, h]

/-- C3 witness: a concrete destroyed component, and a creation step that would
have installed an instance and emitted `ready`, is left untouched by the
continuation. -/
theorem C3_destroyed_abandons_creation_witness :
    afterViewInitThen ⟨none, none, none, true, false⟩
        (fun s => ({ s with inst := some ⟨id, "x", false, true⟩ }, [Step.emitReady]))
      = (⟨none, none, none, true, false⟩, []) :=
  (C3_destroyed_abandons_creation ⟨none, none, none, true, false⟩
    (fun s => ({ s with inst := some ⟨id, "x", false, true⟩ }, [Step.emitReady]))).1 rfl

/-- C1: for every invocation of `propagateChange` (always with an instance
present), `dataChange` emits iff the freshly read content differs from the
cached `_data`; when it differs the cache is updated to the new content,
`dataChange` carries that content and the registered `onChange` callback is
invoked; independently, `change` emits exactly when the native event name is
`"change"` and `dataReady` exactly when it is `"dataReady"`. -/
theorem C1_propagateChange_contract (st : CKState) (e : Editor) (nm : String)
    (h : st.inst = some e) :
    ((∃ s, Step.emitDataChange s ∈ (propagateChange st nm).2)
        ↔ some e.getData ≠ st._data) ∧
    (some e.getData ≠ st._data →
        (propagateChange st nm).1._data = some e.getData ∧
        Step.emitDataChange e.getData ∈ (propagateChange st nm).2 ∧
        (st.onChangeReg = true → Step.cbOnChange e.getData ∈ (propagateChange st nm).2)) ∧
    (some e.getData = st._data → (propagateChange st nm).1 = st) ∧
    (st.onChangeReg = false → ∀ s, Step.cbOnChange s ∉ (propagateChange st nm).2) ∧
    (Step.emitChange ∈ (propagateChange st nm).2 ↔ nm = "change") ∧
    (Step.emitDataReady ∈ (propagateChange st nm).2 ↔ nm = "dataReady") := by
  by_cases hd : some e.getData = st._data <;>
    by_cases hc : nm = "change" <;>
    by_cases hr : nm = "dataReady" <;>
    by_cases ho : st.onChangeReg <;>
    simp_all [propagateChange]

/-- C1 witness: a concrete invocation with cached `"a"`, instance content
`"b"` and event name `"change"` emits the `change` output. -/
theorem C1_propagateChange_contract_witness :
    Step.emitChange ∈
      (propagateChange ⟨some ⟨id, "b", false, true⟩, some "a", none, false, true⟩
        "change").2 :=
  ((C1_propagateChange_contract ⟨some ⟨id, "b", false, true⟩, some "a", none, false, true⟩
      ⟨id, "b", false, true⟩ "change" rfl).2.2.2.2.1).mpr rfl

/-- C2 counterexample: with an instance whose serialization normalizes
content (here every `setData` stores `"B"`), writing the byte-identical
string `"A"` twice in a row calls `setData` on the instance both times —
after the first write the cache holds the normalized `"B"`, so the second
write of `"A"` is not a no-op.  This refutes the claim's "no second call"
sentence. -/
theorem C2_second_write_counterexample :
    ((CKState.dataSet ⟨some ⟨fun _ => "B", "", false, true⟩, none, none, false, false⟩
        "A").2 = [Step.instSetData "A"]) ∧
    (((CKState.dataSet ⟨some ⟨fun _ => "B", "", false, true⟩, none, none, false, false⟩
        "A").1.dataSet "A").2 = [Step.instSetData "A"]) :=
  ⟨rfl, rfl⟩

/-- C2 (amended): writing the data property is a complete no-op when the
value equals the cached one; otherwise with an instance it calls
`instance.setData` exactly once with the written value and re-caches from the
instance's own serialization, and without an instance it only caches locally.
Writing the same byte-identical string twice in a row produces no second call
into the instance whenever the first write leaves the cache equal to the
written value — in particular always when no instance exists; when the
instance's serialization normalizes the value, the second write does call
into the instance again. -/
theorem C2_data_setter (st : CKState) (d : String) :
    (some d = st._data → st.dataSet d = (st, [])) ∧
    (∀ e, st.inst = some e → some d ≠ st._data →
        st.dataSet d = ({ st with
                            inst := some (e.setData d),
                            _data := some (e.setData d).getData },
                        [Step.instSetData d])) ∧
    (st.inst = none → some d ≠ st._data →
        st.dataSet d = ({ st with _data := some d }, [])) ∧
    ((st.dataSet d).1._data = some d →
        (st.dataSet d).1.dataSet d = ((st.dataSet d).1, [])) ∧
    (st.inst = none → (st.dataSet d).1.dataSet d = ((st.dataSet d).1, [])) := by
  refine ⟨?_, ?_, ?_, ?_, ?_⟩
  · intro h
    simp [CKState.dataSet, h]
  · intro e he hne
    simp [CKState.dataSet, hne, he]
  · intro he hne
    simp [CKState.dataSet, hne, he]
  · intro h
    generalize (st.dataSet d).1 = A at h ⊢
    simp [CKState.dataSet, h]
  · intro he
    by_cases h0 : some d = st._data
    · simp [CKState.dataSet, h0]
    · simp [CKState.dataSet, h0, he]

/-- C2 witness: writing the cached value `"x"` again is a no-op, and a state
without an instance absorbs two identical writes with no instance call. -/
theorem C2_data_setter_witness :
    (CKState.dataSet ⟨none, some "x", none, false, false⟩ "x"
        = (⟨none, some "x", none, false, false⟩, [])) ∧
    ((CKState.dataSet ⟨none, none, none, false, false⟩ "x").1.dataSet "x"
        = ((CKState.dataSet ⟨none, none, none, false, false⟩ "x").1, [])) :=
  ⟨(C2_data_setter ⟨none, some "x", none, false, false⟩ "x").1 rfl,
   (C2_data_setter ⟨none, none, none, false, false⟩ "x").2.2.2.2 rfl⟩

lemma propagateChange_mem_shape (st : CKState) (nm : String) (s : Step)
    (hs : s ∈ (propagateChange st nm).2) :
    s = Step.emitChange ∨ s = Step.emitDataReady ∨
    (∃ x, s = Step.emitDataChange x) ∨ (∃ x, s = Step.cbOnChange x) := by
  unfold propagateChange at hs
  cases h : st.inst with
  | none => rw [h] at hs; simp at hs
  | some e =>
      rw [h] at hs
      by_cases hd : some e.getData = st._data <;>
        by_cases hc : nm = "change" <;>
        by_cases hr : nm = "dataReady" <;>
        by_cases ho : st.onChangeReg <;>
        (simp [hd, hc, hr, ho] at hs <;> aesop)

lemma fireEvent_mem_shape (st : CKState) (e : Editor) (nm : String) (s : Step)
    (hs : s ∈ (fireEvent st e nm).2) :
    s = Step.emitChange ∨ s = Step.emitDataReady ∨
    (∃ x, s = Step.emitDataChange x) ∨ (∃ x, s = Step.cbOnChange x) := by
  unfold fireEvent at hs
  by_cases h : (nm, Handler.propagate) ∈ subscribe e
  · rw [if_pos h] at hs
    exact propagateChange_mem_shape st nm s hs
  · rw [if_neg h] at hs
    simp at hs

lemma fireEvent_filter_setReadOnly (st : CKState) (e : Editor) (nm : String) :
    (fireEvent st e nm).2.filter Step.isSetReadOnly = [] := by
  rw [List.filter_eq_nil_iff]
  intro s hs
  rcases fireEvent_mem_shape st e nm s hs with h | h | ⟨x, h⟩ | ⟨x, h⟩ <;>
    simp [h, Step.isSetReadOnly]

lemma fireEvent_filter_setData (st : CKState) (e : Editor) (nm : String) :
    (fireEvent st e nm).2.filter Step.isSetData = [] := by
  rw [List.filter_eq_nil_iff]
  intro s hs
  rcases fireEvent_mem_shape st e nm s hs with h | h | ⟨x, h⟩ | ⟨x, h⟩ <;>
    simp [h, Step.isSetData]

lemma fireEvent_not_ctrl (st : CKState) (e : Editor) (nm : String) :
    Step.undoLock ∉ (fireEvent st e nm).2 ∧
    Step.undoUnlock ∉ (fireEvent st e nm).2 ∧
    (∀ x, Step.fire x ∉ (fireEvent st e nm).2) ∧
    Step.cbUserReady ∉ (fireEvent st e nm).2 ∧
    Step.emitReady ∉ (fireEvent st e nm).2 := by
  refine ⟨?_, ?_, ?_, ?_, ?_⟩ <;>
    first
    | (intro hs
       rcases fireEvent_mem_shape st e nm _ hs with h | h | ⟨x, h⟩ | ⟨x, h⟩ <;> simp_all)
    | (intro x hs
       rcases fireEvent_mem_shape st e nm _ hs with h | h | ⟨y, h⟩ | ⟨y, h⟩ <;> simp_all)

/-- C5: read-only writes before the instance exists are stored locally (no
instance call); once an instance exists every write delegates immediately and
every read queries the instance (reads before creation return the pending
local value); and during the instance-ready sequence `setReadOnly` is applied
exactly once, with a pending non-null `_readOnly` taking precedence over the
instance's own default. -/
theorem C5_readOnly_contract (st : CKState) (b : Bool) (e : Editor) (cb : Bool) :
    (st.inst = none → st.readOnlySet b = ({ st with _readOnly := some b }, [])) ∧
    (∀ e0, st.inst = some e0 →
        st.readOnlySet b = ({ st with inst := some { e0 with readOnly := b } },
                            [Step.instSetReadOnly b])) ∧
    (∀ e0, st.inst = some e0 → st.readOnlyGet = some e0.readOnly) ∧
    (st.inst = none → st.readOnlyGet = st._readOnly) ∧
    ((instanceReadyHandler st e cb).2.filter Step.isSetReadOnly
        = [Step.instSetReadOnly (st._readOnly.getD e.readOnly)]) := by
  refine ⟨?_, ?_, ?_, ?_, ?_⟩
  · intro h
    simp [CKState.readOnlySet, h]
  · intro e0 h
    simp [CKState.readOnlySet, h]
  · intro e0 h
    simp [CKState.readOnlyGet, h]
  · intro h
    simp [CKState.readOnlyGet, h]
  · cases hdt : st._data with
    | none =>
        cases cb <;>
          simp [instanceReadyHandler, hdt, List.filter_append, Step.isSetReadOnly]
    | some d =>
        by_cases hne : e.normalize d = d
        · cases cb <;> cases hu : e.hasUndo <;>
            simp [instanceReadyHandler, Editor.setData, Editor.getData, hdt, hne,
                  hu, List.filter_append, Step.isSetReadOnly]
        · have hne' : d ≠ e.normalize d := fun h => hne h.symm
          cases cb <;> cases hu : e.hasUndo <;>
            simp [instanceReadyHandler, Editor.setData, Editor.getData, hdt, hne',
                  hu, List.filter_append, Step.isSetReadOnly,
                  fireEvent_filter_setReadOnly]

/-- C5 witness: a pending `readOnly := true` on an instance-less component is
stored locally, and at instance-ready it is applied once, winning over the
instance default `false`. -/
theorem C5_readOnly_contract_witness :
    (CKState.readOnlySet ⟨none, none, some true, false, false⟩ true
        = (⟨none, none, some true, false, false⟩, [])) ∧
    ((instanceReadyHandler ⟨none, none, some true, false, false⟩
        ⟨id, "", false, true⟩ false).2.filter Step.isSetReadOnly
        = [Step.instSetReadOnly true]) := by
  constructor
  · have h := (C5_readOnly_contract ⟨none, none, some true, false, false⟩ true
      ⟨id, "", false, true⟩ false).1 rfl
    simpa using h
  · exact (C5_readOnly_contract ⟨none, none, some true, false, false⟩ true
      ⟨id, "", false, true⟩ false).2.2.2.2

lemma fire_not_mem_fireEvent (st : CKState) (e : Editor) (nm x : String) :
    Step.fire x ∉ (fireEvent st e nm).2 := by
  intro hs
  rcases fireEvent_mem_shape st e nm _ hs with h | h | ⟨y, h⟩ | ⟨y, h⟩ <;> simp_all

lemma undoLock_not_mem_fireEvent (st : CKState) (e : Editor) (nm : String) :
    Step.undoLock ∉ (fireEvent st e nm).2 :=
  (fireEvent_not_ctrl st e nm).1

lemma undoUnlock_not_mem_fireEvent (st : CKState) (e : Editor) (nm : String) :
    Step.undoUnlock ∉ (fireEvent st e nm).2 :=
  (fireEvent_not_ctrl st e nm).2.1

lemma count_fireEvent_emitReady (st : CKState) (e : Editor) (nm : String) :
    (fireEvent st e nm).2.count Step.emitReady = 0 :=
  List.count_eq_zero.mpr (fireEvent_not_ctrl st e nm).2.2.2.2

lemma count_fireEvent_cbUserReady (st : CKState) (e : Editor) (nm : String) :
    (fireEvent st e nm).2.count Step.cbUserReady = 0 :=
  List.count_eq_zero.mpr (fireEvent_not_ctrl st e nm).2.2.2.1

/-- C4: at instance creation with a cached initial data value `d`: the undo
manager is locked and later unlocked exactly when present; `setData` is
called exactly once, with `d`; a synthetic `change` is fired exactly when the
serialized content after the push still differs from `d` and the undo manager
exists, a synthetic `dataReady` exactly when it differs and no undo manager
exists; the user-supplied instanceReady callback (when given) and the `ready`
emission come last, in that order, and are emitted exactly once; and after
the handler completes the cached data equals the instance's serialized
content. -/
theorem C4_initial_data_flow (st : CKState) (e : Editor) (cb : Bool) (d : String)
    (hd : st._data = some d) :
    (Step.undoLock ∈ (instanceReadyHandler st e cb).2 ↔ e.hasUndo = true) ∧
    (Step.undoUnlock ∈ (instanceReadyHandler st e cb).2 ↔ e.hasUndo = true) ∧
    ((instanceReadyHandler st e cb).2.filter Step.isSetData = [Step.instSetData d]) ∧
    (Step.fire "change" ∈ (instanceReadyHandler st e cb).2
        ↔ (d ≠ e.normalize d ∧ e.hasUndo = true)) ∧
    (Step.fire "dataReady" ∈ (instanceReadyHandler st e cb).2
        ↔ (d ≠ e.normalize d ∧ e.hasUndo = false)) ∧
    ((instanceReadyHandler st e cb).2.reverse.take (if cb then 2 else 1)
        = (if cb then [Step.emitReady, Step.cbUserReady] else [Step.emitReady])) ∧
    ((instanceReadyHandler st e cb).2.count Step.emitReady = 1) ∧
    ((instanceReadyHandler st e cb).2.count Step.cbUserReady = (if cb then 1 else 0)) ∧
    (∃ e2, (instanceReadyHandler st e cb).1.inst = some e2 ∧
        (instanceReadyHandler st e cb).1._data = some e2.getData) := by
  by_cases hne : e.normalize d = d
  · have hstate : ∃ e2, (instanceReadyHandler st e cb).1.inst = some e2 ∧
        (instanceReadyHandler st e cb).1._data = some e2.getData := by
      refine ⟨Editor.setData { e with readOnly := st._readOnly.getD e.readOnly } d, ?_, ?_⟩ <;>
        simp [instanceReadyHandler, Editor.setData, Editor.getData, hd, hne]
    refine ⟨?_, ?_, ?_, ?_, ?_, ?_, ?_, ?_, hstate⟩ <;>
      cases hu : e.hasUndo <;> cases cb <;>
        simp [instanceReadyHandler, Editor.setData, Editor.getData, hd, hne, hu,
              List.filter_append, Step.isSetData, List.count_append, List.count_cons]
  · have hne' : d ≠ e.normalize d := fun h => hne h.symm
    have hstate : ∃ e2, (instanceReadyHandler st e cb).1.inst = some e2 ∧
        (instanceReadyHandler st e cb).1._data = some e2.getData := by
      refine ⟨Editor.setData { e with readOnly := st._readOnly.getD e.readOnly } d, ?_, ?_⟩ <;>
        cases hu : e.hasUndo <;>
          simp [instanceReadyHandler, fireEvent, subscribe, propagateChange,
                Editor.setData, Editor.getData, hd, hne, hne', hu]
    refine ⟨?_, ?_, ?_, ?_, ?_, ?_, ?_, ?_, hstate⟩ <;>
      cases hu : e.hasUndo <;> cases cb <;>
        simp [instanceReadyHandler, Editor.setData, Editor.getData, hd, hne', hu,
              List.filter_append, Step.isSetData, fireEvent_filter_setData,
              fire_not_mem_fireEvent, undoLock_not_mem_fireEvent,
              undoUnlock_not_mem_fireEvent, count_fireEvent_emitReady,
              count_fireEvent_cbUserReady, List.count_append, List.count_cons]

/-- C4 witness: concrete creation with cached data `"x"`, an instance whose
filtering turns it into `"x!"` and an undo manager: `setData` is called once
with `"x"` and a synthetic `change` is fired. -/
theorem C4_initial_data_flow_witness :
    ((instanceReadyHandler ⟨none, some "x", some true, false, true⟩
        ⟨fun s => s ++ "!", "", false, true⟩ true).2.filter Step.isSetData
      = [Step.instSetData "x"]) ∧
    Step.fire "change" ∈ (instanceReadyHandler ⟨none, some "x", some true, false, true⟩
        ⟨fun s => s ++ "!", "", false, true⟩ true).2 := by
  constructor
  · exact (C4_initial_data_flow ⟨none, some "x", some true, false, true⟩
      ⟨fun s => s ++ "!", "", false, true⟩ true "x" rfl).2.2.1
  · exact ((C4_initial_data_flow ⟨none, some "x", some true, false, true⟩
      ⟨fun s => s ++ "!", "", false, true⟩ true "x" rfl).2.2.2.1).mpr ⟨by decide, rfl⟩
